/-
Verification of the Kizuna P2P bridge (pear_bridge/index.js, a2a-gateway.js).

The development is a shallow embedding of the bridge's state and of the
operations the claims touch.  JavaScript `Map`s keyed by strings are
modelled as association lists with unique keys (a JS Map updates an
existing key in place, preserving insertion order, which on lists with
unique keys coincides with the recursive `kset` below).  JS `undefined`
or `null` fields are modelled as `Option` values; JS string-falsiness
(`undefined`, `null`, `""`) is modelled explicitly where the code relies
on it.  Wall-clock times are naturals (milliseconds).
-/
import Mathlib

namespace Kizuna

/-- Association map keyed by strings, modelling a JS `Map` whose keys are
strings.  The maps built by the bridge always have unique keys. -/
abbrev KMap (α : Type) : Type := List (String × α)

/-- `Map.get(k)` : first value stored under key `k`. -/
def kget {α : Type} : KMap α → String → Option α
  | [], _ => none
  | (k₁, v₁) :: rest, k => if k₁ = k then some v₁ else kget rest k

/-- `Map.set(k, v)` : replace the entry under `k` in place, or append. -/
def kset {α : Type} : KMap α → String → α → KMap α
  | [], k, v => [(k, v)]
  | (k₁, v₁) :: rest, k, v =>
      if k₁ = k then (k, v) :: rest else (k₁, v₁) :: kset rest k v

/-- `Map.delete(k)`. -/
def kerase {α : Type} : KMap α → String → KMap α
  | [], _ => []
  | (k₁, v₁) :: rest, k =>
      if k₁ = k then kerase rest k else (k₁, v₁) :: kerase rest k

/-- Keys of the map, in insertion order. -/
def kkeys {α : Type} (m : KMap α) : List String := m.map (·.1)

theorem kget_kset_self {α : Type} (m : KMap α) (k : String) (v : α) :
    kget (kset m k v) k = some v := by
  induction m with
  | nil => simp [kset, kget]
  | cons p rest ih =>
      obtain ⟨k₁, v₁⟩ := p
      by_cases h : k₁ = k <;> simp [kset, kget, h, ih]

theorem kget_kset_ne {α : Type} (m : KMap α) (k k' : String) (v : α)
    (h : k' ≠ k) : kget (kset m k v) k' = kget m k' := by
  induction m with
  | nil => simp [kset, kget, Ne.symm h]
  | cons p rest ih =>
      obtain ⟨k₁, v₁⟩ := p
      by_cases h1 : k₁ = k
      · subst h1
        simp [kset, kget, Ne.symm h]
      · simp [kset, kget, h1, ih]

theorem kget_kerase_self {α : Type} (m : KMap α) (k : String) :
    kget (kerase m k) k = none := by
  induction m with
  | nil => simp [kerase, kget]
  | cons p rest ih =>
      obtain ⟨k₁, v₁⟩ := p
      by_cases h : k₁ = k <;> simp [kerase, kget, h, ih]

theorem kget_kerase_ne {α : Type} (m : KMap α) (k k' : String)
    (h : k' ≠ k) : kget (kerase m k) k' = kget m k' := by
  induction m with
  | nil => simp [kerase, kget]
  | cons p rest ih =>
      obtain ⟨k₁, v₁⟩ := p
      by_cases h1 : k₁ = k
      · subst h1
        simp [kerase, kget, Ne.symm h, ih]
      · simp [kerase, kget, h1, ih]

theorem mem_kset {α : Type} {m : KMap α} {k : String} {v : α} {p : String × α}
    (h : p ∈ kset m k v) : p = (k, v) ∨ p ∈ m := by
  induction m with
  | nil =>
      rw [kset] at h
      exact Or.inl (List.mem_singleton.mp h)
  | cons q rest ih =>
      obtain ⟨k₁, v₁⟩ := q
      by_cases h1 : k₁ = k
      · rw [kset, if_pos h1] at h
        rcases List.mem_cons.mp h with h2 | h2
        · exact Or.inl h2
        · exact Or.inr (List.mem_cons_of_mem _ h2)
      · rw [kset, if_neg h1] at h
        rcases List.mem_cons.mp h with h2 | h2
        · exact Or.inr (List.mem_cons.mpr (Or.inl h2))
        · rcases ih h2 with h3 | h3
          · exact Or.inl h3
          · exact Or.inr (List.mem_cons_of_mem _ h3)

theorem mem_kerase {α : Type} {m : KMap α} {k : String} {p : String × α}
    (h : p ∈ kerase m k) : p ∈ m := by
  induction m with
  | nil =>
      rw [kerase] at h
      exact absurd h (List.not_mem_nil p)
  | cons q rest ih =>
      obtain ⟨k₁, v₁⟩ := q
      by_cases h1 : k₁ = k
      · rw [kerase, if_pos h1] at h
        exact List.mem_cons_of_mem _ (ih h)
      · rw [kerase, if_neg h1] at h
        rcases List.mem_cons.mp h with h2 | h2
        · exact List.mem_cons.mpr (Or.inl h2)
        · exact List.mem_cons_of_mem _ (ih h2)

theorem kget_mem {α : Type} {m : KMap α} {k : String} {v : α}
    (h : kget m k = some v) : (k, v) ∈ m := by
  induction m with
  | nil => simp [kget] at h
  | cons q rest ih =>
      obtain ⟨k₁, v₁⟩ := q
      by_cases h1 : k₁ = k
      · rw [kget, if_pos h1] at h
        subst h1
        rcases Option.some.inj h with h2
        exact List.mem_cons.mpr (Or.inl (by rw [h2]))
      · rw [kget, if_neg h1] at h
        exact List.mem_cons_of_mem _ (ih h)

/-- JS `x || default` on an optional string (`undefined`, `null` and `""`
are falsy). -/
def jsDefault (o : Option String) (d : String) : String :=
  match o with
  | some s => if s = "" then d else s
  | none => d

/-- JS `x || null` on an optional number (`0` is falsy and becomes `null`). -/
def jsOrNull (o : Option Nat) : Option Nat :=
  match o with
  | some n => if n = 0 then none else some n
  | none => none

/-- Peer manifest (`myManifest` shape): role, skills, display name.
`agent_id` is optional because a remote manifest may omit it. -/
structure Manifest where
  role : Option String
  skills : List String
  agent_id : Option String
deriving DecidableEq

/-- One entry of the `peers` map, restricted to the fields the task engine
reads (the socket handle and timers are external resources).  `key` is the
peer's full hex public key; `manifest` is `null` until its handshake. -/
structure Peer where
  key : String
  manifest : Option Manifest
deriving DecidableEq

/-- `key.slice(-8)` : the short peer id (last 8 characters). -/
def shortId (key : String) : String := key.takeRight 8

/-- Target matching used by `/task/request`, the retry reaper and the A2A
gateway: `peerShortId === target || manifest.agent_id?.toLowerCase()
=== target.toLowerCase()`. -/
def matchesTarget (target : String) (p : Peer) : Bool :=
  shortId p.key == target ||
    (match p.manifest with
     | some m =>
         match m.agent_id with
         | some aid => aid.toLower == target.toLower
         | none => false
     | none => false)

/-- The reaper's peer lookup also accepts `task.target === '*'`. -/
def reaperMatches (target : String) (p : Peer) : Bool :=
  target == "*" || matchesTarget target p

/-- `taskPayload.payload` : `{description, context, priority}`.  The
`context` object is carried as its serialised JSON text. -/
structure TaskPayload where
  description : String
  contextJson : String
  priority : String
deriving DecidableEq

/-- One entry of the `sentTasks` map.  Optional fields model JS fields
that may be absent (`undefined`) on a given task object. -/
structure SentTask where
  target : String
  status : String
  payload : TaskPayload
  task_type : String
  createdAt : Nat
  deadline : Option Nat := none
  attemptCount : Option Nat := none
  lastAttemptAt : Option Nat := none
  nextRetryTime : Option Nat := none
  peerWasOffline : Bool := false
  result : Option String := none
  error : Option String := none
  completedAt : Option Nat := none
  responder : Option String := none
  failureReason : Option String := none
  failedAt : Option Nat := none
  contextId : Option String := none
  a2aSource : Bool := false
deriving DecidableEq

/-- One entry of the `receivedTasks` map. -/
structure ReceivedTask where
  fromKey : String
  fromShortId : String
  status : String
  payload : TaskPayload
  task_type : String
  createdAt : Nat
  deadline : Option Nat := none
  result : Option String := none
  error : Option String := none
deriving DecidableEq

/-- Inner payload of a verified `task_request` frame. -/
structure TaskRequestFrame where
  task_id : String
  task_type : String
  payload : TaskPayload
  deadline : Option Nat
  sender : String
deriving DecidableEq

/-- Inner payload of a verified `task_response` frame. -/
structure TaskResponseFrame where
  task_id : String
  status : String
  result : Option String
  error : Option String
  responder : String
deriving DecidableEq

/-- `RETRY_CONFIG.maxAttempts`. -/
def maxAttempts : Nat := 3

/-- `RETRY_CONFIG.baseDelayMs`. -/
def baseDelayMs : Nat := 5000

/-- `RETRY_CONFIG.maxDelayMs`. -/
def maxDelayMs : Nat := 60000

/-- `exponentialBackoff(attemptCount)`:
`min(baseDelayMs * 2^attemptCount, maxDelayMs)`. -/
def exponentialBackoff (attemptCount : Nat) : Nat :=
  min (baseDelayMs * 2 ^ attemptCount) maxDelayMs

/-- `queueTaskForRetry(taskId, task)` : mutate the task for the next
retry round. `task.attemptCount = (task.attemptCount || 0) + 1`. -/
def queueTaskForRetry (now : Nat) (t : SentTask) : SentTask :=
  let ac := t.attemptCount.getD 0 + 1
  { t with
      status := "queued_for_retry",
      attemptCount := some ac,
      lastAttemptAt := some now,
      nextRetryTime := some (now + exponentialBackoff ac) }

/-- The task record written by `moveToDeadLetter(taskId, task, reason)`. -/
def deadLetterTask (now : Nat) (reason : String) (t : SentTask) : SentTask :=
  { t with status := "failed", failureReason := some reason, failedAt := some now }

/-- The in-place update the reaper performs when the peer is back online
(`task.status = 'pending'; task.lastAttemptAt = now`). -/
def resendUpdate (now : Nat) (t : SentTask) : SentTask :=
  { t with status := "pending", lastAttemptAt := some now }

/-- The two task tables the retry reaper touches. -/
structure TaskTables where
  sent : KMap SentTask
  dead : KMap SentTask
deriving DecidableEq

/-- `task.deadline && task.deadline < now` (0 is falsy in JS). -/
def deadlinePassed (deadline : Option Nat) (now : Nat) : Bool :=
  match deadline with
  | some d => d != 0 && d < now
  | none => false

/-- `task.nextRetryTime && task.nextRetryTime > now` (0 is falsy). -/
def retryNotReady (nextRetryTime : Option Nat) (now : Nat) : Bool :=
  match nextRetryTime with
  | some n => n != 0 && n > now
  | none => false

/-- `task.attemptCount >= RETRY_CONFIG.maxAttempts` (`undefined >= 3`
is false in JS). -/
def attemptsExhausted (attemptCount : Option Nat) : Bool :=
  match attemptCount with
  | some a => maxAttempts ≤ a
  | none => false

/-- What the retry reaper does to one task of the sent-task table. -/
inductive ReaperAction where
  | skip
  | deadLetter (reason : String)
  | resend
  | requeue
deriving DecidableEq

/-- The decision the retry reaper's loop body takes for one task,
mirroring the guard order of the source. -/
def reaperDecide (now : Nat) (peers : List Peer) (t : SentTask) : ReaperAction :=
  if t.status != "queued_for_retry" && t.status != "pending" then .skip
  else if deadlinePassed t.deadline now then .deadLetter "Deadline exceeded"
  else if t.status != "queued_for_retry" then .skip
  else if retryNotReady t.nextRetryTime now then .skip
  else
    match peers.find? (reaperMatches t.target) with
    | some _ => .resend
    | none =>
        if attemptsExhausted t.attemptCount then
          .deadLetter ("Peer offline after " ++ toString (t.attemptCount.getD 0) ++ " attempts")
        else .requeue

/-- Apply the reaper's decision for the entry `(id, t)` to the tables. -/
def reaperStepTask (now : Nat) (peers : List Peer) (acc : TaskTables)
    (id : String) (t : SentTask) : TaskTables :=
  match reaperDecide now peers t with
  | .skip => acc
  | .deadLetter reason =>
      { sent := kerase acc.sent id,
        dead := kset acc.dead id (deadLetterTask now reason t) }
  | .resend => { acc with sent := kset acc.sent id (resendUpdate now t) }
  | .requeue => { acc with sent := kset acc.sent id (queueTaskForRetry now t) }

/-- One tick of the retry reaper: iterate the sent-task table (only the
entry under the current key is ever mutated or removed, so folding over
the initial entry list matches the JS live iteration). -/
def reaperTick (now : Nat) (peers : List Peer) (tables : TaskTables) : TaskTables :=
  tables.sent.foldl (fun acc p => reaperStepTask now peers acc p.1 p.2) tables

/-- `VALID_TASK_TYPES`. -/
def VALID_TASK_TYPES : List String :=
  ["general", "analysis", "code_review", "research", "test", "other"]

/-- `VALID_PRIORITIES`. -/
def VALID_PRIORITIES : List String := ["low", "medium", "high", "critical"]

/-- `MAX_DESCRIPTION_LENGTH`. -/
def MAX_DESCRIPTION_LENGTH : Nat := 10000

/-- `MAX_CONTEXT_SIZE`. -/
def MAX_CONTEXT_SIZE : Nat := 50000

/-- Body of a `POST /task/request`, with JSON fields typed.  `context` is
carried as its serialised JSON text (the code only measures and stores
it).  Branches of the source that reject non-string / non-number typed
fields are unrepresentable here and therefore omitted. -/
structure TaskRequestBody where
  task_type : Option String := none
  description : Option String := none
  context : Option String := none
  target : Option String := none
  priority : Option String := none
  deadline : Option Nat := none
deriving DecidableEq

/-- The JSON body of an HTTP response of the control plane, restricted to
the fields the claims mention. -/
structure HttpResult where
  httpStatus : Nat
  error : Option String := none
  task_id : Option String := none
  bodyStatus : Option String := none
  target : Option String := none
  sent_to : Option Nat := none
  message : Option String := none
  next_retry_at : Option Nat := none
deriving DecidableEq

/-- Result of `POST /task/request`: the HTTP response and the new
sent-task table. -/
structure TaskRequestOutcome where
  resp : HttpResult
  tasks : KMap SentTask
deriving DecidableEq

/-- `!description` (also catches the empty string). -/
def descMissing (b : TaskRequestBody) : Bool :=
  match b.description with
  | none => true
  | some d => d == ""

/-- `description.length > MAX_DESCRIPTION_LENGTH`. -/
def descTooLong (b : TaskRequestBody) : Bool :=
  match b.description with
  | some d => MAX_DESCRIPTION_LENGTH < d.length
  | none => false

/-- `task_type && !VALID_TASK_TYPES.includes(task_type)`. -/
def taskTypeBad (b : TaskRequestBody) : Bool :=
  match b.task_type with
  | some tt => tt != "" && !(VALID_TASK_TYPES.contains tt)
  | none => false

/-- `priority && !VALID_PRIORITIES.includes(priority)`. -/
def priorityBad (b : TaskRequestBody) : Bool :=
  match b.priority with
  | some p => p != "" && !(VALID_PRIORITIES.contains p)
  | none => false

/-- `context && JSON.stringify(context).length > MAX_CONTEXT_SIZE`. -/
def contextTooBig (b : TaskRequestBody) : Bool :=
  match b.context with
  | some c => MAX_CONTEXT_SIZE < c.length
  | none => false

/-- `if (target && target !== '*')` : the specific-peer branch is taken
only for a present, non-empty, non-`"*"` target. -/
def specificTarget (b : TaskRequestBody) : Option String :=
  match b.target with
  | some tgt => if tgt != "" && tgt != "*" then some tgt else none
  | none => none

/-- `app.post('/task/request')` : validation, peer lookup, and the three
outcomes (400 / queued-for-retry 202 / sent 200), with the generated
UUID and the wall clock passed in. -/
def handleTaskRequest (b : TaskRequestBody) (peers : List Peer) (now : Nat)
    (task_id : String) (sent : KMap SentTask) : TaskRequestOutcome :=
  if descMissing b then
    ⟨{ httpStatus := 400, error := some "description is required" }, sent⟩
  else if descTooLong b then
    ⟨{ httpStatus := 400,
       error := some ("description exceeds max length of " ++ toString MAX_DESCRIPTION_LENGTH) }, sent⟩
  else if taskTypeBad b then
    ⟨{ httpStatus := 400,
       error := some ("task_type must be one of: " ++ String.intercalate ", " VALID_TASK_TYPES) }, sent⟩
  else if priorityBad b then
    ⟨{ httpStatus := 400,
       error := some ("priority must be one of: " ++ String.intercalate ", " VALID_PRIORITIES) }, sent⟩
  else if contextTooBig b then
    ⟨{ httpStatus := 400,
       error := some ("context exceeds max size of " ++ toString MAX_CONTEXT_SIZE ++ " bytes") }, sent⟩
  else
    let payload : TaskPayload :=
      { description := b.description.getD "",
        contextJson := b.context.getD "\x7b\x7d",
        priority := jsDefault b.priority "medium" }
    let ttype := jsDefault b.task_type "general"
    let storedDeadline := jsOrNull b.deadline
    match specificTarget b with
    | some tgt =>
        match peers.find? (matchesTarget tgt) with
        | some p =>
            ⟨{ httpStatus := 200, task_id := some task_id, bodyStatus := some "sent",
               target := some (shortId p.key), sent_to := some 1 },
             kset sent task_id
               { target := shortId p.key, status := "pending", payload := payload,
                 task_type := ttype, createdAt := now, deadline := storedDeadline }⟩
        | none =>
            ⟨{ httpStatus := 202, task_id := some task_id,
               bodyStatus := some "queued_for_retry", target := some tgt,
               sent_to := some 0,
               message := some ("Peer '" ++ tgt ++ "' offline, queued for retry"),
               next_retry_at := some (now + exponentialBackoff 1) },
             kset sent task_id
               { target := tgt, status := "queued_for_retry", payload := payload,
                 task_type := ttype, createdAt := now, deadline := storedDeadline,
                 attemptCount := some 1, lastAttemptAt := some now,
                 nextRetryTime := some (now + exponentialBackoff 1),
                 peerWasOffline := true }⟩
    | none =>
        ⟨{ httpStatus := 200, task_id := some task_id, bodyStatus := some "sent",
           target := some "*", sent_to := some peers.length },
         kset sent task_id
           { target := "*", status := "pending", payload := payload,
             task_type := ttype, createdAt := now, deadline := storedDeadline }⟩

/-- The sent-task record stored by the A2A `message/send` handler
(`a2a-gateway.js`, `handleMessageSend`), after parameter validation and
after `a2aMessageToKtpPayload` produced `ktpPayload`.  Note that no
`attemptCount` and no `nextRetryTime` are written, even on the
`queued_for_retry` branch. -/
def a2aSendStore (target : Option String) (ktpPayload : TaskPayload)
    (contextId : Option String) (peers : List Peer) (now : Nat)
    (taskId : String) (sent : KMap SentTask) : KMap SentTask :=
  let targeted : Option String :=
    match target with
    | some t => if t != "" && t != "*" then some t else none
    | none => none
  let found : Option Peer :=
    match targeted with
    | some t => peers.find? (matchesTarget t)
    | none => none
  let sentCount : Nat :=
    match targeted with
    | some _ => match found with | some _ => 1 | none => 0
    | none => peers.length
  kset sent taskId
    { target := (found.map (fun p => shortId p.key)).getD "*",
      status := if 0 < sentCount then "pending" else "queued_for_retry",
      payload := ktpPayload,
      task_type := "general",
      createdAt := now,
      contextId := some (jsDefault contextId taskId),
      deadline := none,
      a2aSource := true }

/-- The sent-task update of the socket `task_response` handler: if the id
names a live sent task, overwrite status / result / error and stamp
`completedAt` and `responder`. -/
def taskResponseUpdate (sent : KMap SentTask) (fr : TaskResponseFrame)
    (remoteKey : String) (now : Nat) : KMap SentTask :=
  match kget sent fr.task_id with
  | some t =>
      kset sent fr.task_id
        { t with
            status := fr.status, result := fr.result, error := fr.error,
            completedAt := some now, responder := some (shortId remoteKey) }
  | none => sent

/-- Content of an inbox record. -/
inductive InboxContent where
  | taskRequest (frame : TaskRequestFrame)
  | taskResponse (frame : TaskResponseFrame)
  | raw (json : String)
deriving DecidableEq

/-- One buffered inbox record. -/
structure InboxMsg where
  sender : String
  senderShortId : String
  timestamp : Nat
  content : InboxContent
deriving DecidableEq

/-- The socket `task_request` handler: unconditionally (re)write the
received-task entry and append the payload to the inbox. -/
def handleTaskRequestFrame (remoteKey : String) (now : Nat)
    (fr : TaskRequestFrame) (received : KMap ReceivedTask)
    (inbox : List InboxMsg) : KMap ReceivedTask × List InboxMsg :=
  (kset received fr.task_id
     { fromKey := remoteKey, fromShortId := shortId remoteKey,
       status := "pending", payload := fr.payload, task_type := fr.task_type,
       createdAt := now, deadline := fr.deadline },
   inbox ++ [{ sender := remoteKey, senderShortId := shortId remoteKey,
               timestamp := now, content := .taskRequest fr }])

/-- `app.post('/tasks/retry/:task_id')` : promote a dead-lettered task
back into the sent-task table. -/
def handleManualRetry (taskId : String) (now : Nat) (tables : TaskTables) :
    HttpResult × TaskTables :=
  match kget tables.dead taskId with
  | none =>
      ({ httpStatus := 404, error := some "Task not found in dead letter queue" }, tables)
  | some t =>
      let t1 : SentTask :=
        { t with
            status := "queued_for_retry", attemptCount := some 0,
            nextRetryTime := some now, failureReason := none, failedAt := none }
      ({ httpStatus := 200, task_id := some taskId,
         bodyStatus := some "queued_for_retry", message := some "Task requeued" },
       { sent := kset tables.sent taskId t1, dead := kerase tables.dead taskId })

/-- Response of `GET /inbox` together with the drained buffer:
`const messages = [...inbox]; inbox.length = 0`. -/
structure InboxReadResult where
  count : Nat
  messages : List InboxMsg
  rest : List InboxMsg
deriving DecidableEq

/-- `app.get('/inbox')`. -/
def handleInboxRead (inbox : List InboxMsg) : InboxReadResult :=
  { count := inbox.length, messages := inbox, rest := [] }

/-- One entry of the `activeTopics` map.  The 32-byte SHA-256 topic
buffer is modelled abstractly by its pre-image string (`topicName` or
`topicName + ":" + secret`); the hash itself lives in the external
crypto library and no claim depends on its value. -/
structure TopicInfo where
  hashInput : String
  hasSecret : Bool
  joinedAt : Nat
deriving DecidableEq

/-- The string hashed by `joinTopic`. -/
def topicHashInput (topicName secret : String) : String :=
  if secret != "" then topicName ++ ":" ++ secret else topicName

/-- `joinTopic(topicName, secret)` : idempotent insert. -/
def joinTopic (topics : KMap TopicInfo) (topicName secret : String)
    (now : Nat) : KMap TopicInfo :=
  if (kget topics topicName).isSome then topics
  else
    kset topics topicName
      { hashInput := topicHashInput topicName secret,
        hasSecret := secret != "", joinedAt := now }

/-- The default topic auto-joined at startup. -/
def DEFAULT_TOPIC : String := "agent-zero-swarm-poc"

/-- The topic table right after startup (`joinTopic('agent-zero-swarm-poc')`). -/
def startupTopics (now : Nat) : KMap TopicInfo := joinTopic [] DEFAULT_TOPIC "" now

/-- `leaveTopic(topicName)` : returns whether the topic was present, and
the new table.  There is no special case for the default topic. -/
def leaveTopic (topics : KMap TopicInfo) (topicName : String) :
    Bool × KMap TopicInfo :=
  if (kget topics topicName).isSome then (true, kerase topics topicName)
  else (false, topics)

/-- `app.post('/leave')`. -/
def handleLeave (topics : KMap TopicInfo) (topic : Option String) :
    HttpResult × KMap TopicInfo :=
  match topic with
  | none => ({ httpStatus := 400, error := some "Missing topic" }, topics)
  | some t =>
      if t = "" then ({ httpStatus := 400, error := some "Missing topic" }, topics)
      else
        let r := leaveTopic topics t
        if r.1 then ({ httpStatus := 200, bodyStatus := some "left" }, r.2)
        else ({ httpStatus := 404, error := some "Not in topic" }, topics)

/-- Hex digit used by `Buffer.toString('hex')` (lower case). -/
def hexChar (n : Nat) : Char :=
  if n < 10 then Char.ofNat (48 + n) else Char.ofNat (87 + n)

/-- Value of one hex digit, accepting both cases, as `Buffer.from(_, 'hex')`
does; `none` for a non-hex character. -/
def hexCharVal (c : Char) : Option Nat :=
  if 48 ≤ c.toNat ∧ c.toNat ≤ 57 then some (c.toNat - 48)
  else if 97 ≤ c.toNat ∧ c.toNat ≤ 102 then some (c.toNat - 87)
  else if 65 ≤ c.toNat ∧ c.toNat ≤ 70 then some (c.toNat - 55)
  else none

/-- `Buffer.from(bytes).toString('hex')`. -/
def bytesToHex (bs : List Nat) : String :=
  String.mk (bs.flatMap (fun b => [hexChar (b / 16), hexChar (b % 16)]))

/-- Pairwise hex decoding; decoding stops at the first invalid pair and a
trailing odd character is dropped, as in `Buffer.from(s, 'hex')`. -/
def hexPairsToBytes : List Char → List Nat
  | c1 :: c2 :: rest =>
      match hexCharVal c1, hexCharVal c2 with
      | some h, some l => (h * 16 + l) :: hexPairsToBytes rest
      | _, _ => []
  | _ => []

/-- `Buffer.from(s, 'hex')` as a byte list. -/
def hexToBytes (s : String) : List Nat := hexPairsToBytes s.data

/-- UTF-8 bytes of a string (`Buffer.from(s)`). -/
def utf8Bytes (s : String) : List Nat := s.toUTF8.toList.map (fun b => b.toNat)

/-- Abstract model of the Node Ed25519 primitives the bridge uses with
its persistent keypair.  Key objects are identified with the DER bytes
they were parsed from; `createPublicKey` returning `none` models a
thrown error on invalid SPKI input; the `Prop` fields are the documented
behaviour of the real library (exported keys and signatures are byte
buffers, the node's own exported key parses back, and an Ed25519
signature made with the private key verifies under the public key). -/
structure CryptoApi where
  sign : List Nat → List Nat
  createPublicKey : List Nat → Option (List Nat)
  verify : List Nat → List Nat → List Nat → Bool
  spkiDer : List Nat
  spkiDer_bytes : ∀ b ∈ spkiDer, b < 256
  sign_bytes : ∀ msg b, b ∈ sign msg → b < 256
  parse_own : createPublicKey spkiDer = some spkiDer
  verify_sign : ∀ msg, verify spkiDer msg (sign msg) = true

/-- `myPeerId` : the node's full SPKI-DER public key as hex. -/
def myPeerId (C : CryptoApi) : String := bytesToHex C.spkiDer

/-- The signed envelope produced by `signMessage`. -/
structure Envelope where
  content : String
  senderKey : String
  signature : String
  timestamp : Nat
deriving DecidableEq

/-- `signMessage(contentString)`. -/
def signMessage (C : CryptoApi) (now : Nat) (contentString : String) : Envelope :=
  { content := contentString,
    senderKey := myPeerId C,
    signature := bytesToHex (C.sign (utf8Bytes contentString)),
    timestamp := now }

/-- An arbitrary inbound record passed to `verifyMessage`; each field may
be absent (`undefined`). -/
structure MsgRecord where
  content : Option String := none
  senderKey : Option String := none
  signature : Option String := none
deriving DecidableEq

/-- View of an envelope as an inbound record. -/
def Envelope.toRecord (e : Envelope) : MsgRecord :=
  { content := some e.content, senderKey := some e.senderKey,
    signature := some e.signature }

/-- `verifyMessage(message)` : every fallible step (a missing field, an
unparseable key) lands in the `catch` and yields `false`. -/
def verifyMessage (C : CryptoApi) (m : MsgRecord) : Bool :=
  match m.content, m.senderKey, m.signature with
  | some content, some senderKey, some signature =>
      match C.createPublicKey (hexToBytes senderKey) with
      | some keyObj => C.verify keyObj (utf8Bytes content) (hexToBytes signature)
      | none => false
  | _, _, _ => false

/-- A concrete degenerate crypto backend, used only to witness that the
abstract interface is satisfiable. -/
def unitCrypto : CryptoApi where
  sign _ := [0]
  createPublicKey bs := some bs
  verify k _ s := k == [1] && s == [0]
  spkiDer := [1]
  spkiDer_bytes := by intro b hb; simp at hb; omega
  sign_bytes := by intro msg b hb; simp at hb; omega
  parse_own := rfl
  verify_sign := by intro msg; rfl

/-- A degenerate backend whose `createPublicKey` rejects everything but
the node's own key, to exercise the failure path of `verifyMessage`. -/
def pickyCrypto : CryptoApi where
  sign _ := [0]
  createPublicKey bs := if bs = [1] then some [1] else none
  verify k _ s := k == [1] && s == [0]
  spkiDer := [1]
  spkiDer_bytes := by intro b hb; simp at hb; omega
  sign_bytes := by intro msg b hb; simp at hb; omega
  parse_own := rfl
  verify_sign := by intro msg; rfl

/-- The operations of the bridge that create or mutate entries of the
sent-task / dead-letter tables.  The generated UUID, the wall clock and
the current peer list are inputs of each occurrence. -/
inductive Op where
  | submit (b : TaskRequestBody) (peers : List Peer) (now : Nat) (task_id : String)
  | a2aSend (target : Option String) (ktpPayload : TaskPayload)
      (contextId : Option String) (peers : List Peer) (now : Nat) (task_id : String)
  | response (fr : TaskResponseFrame) (remoteKey : String) (now : Nat)
  | reap (peers : List Peer) (now : Nat)
  | manualRetry (taskId : String) (now : Nat)

/-- Effect of one operation on the two task tables. -/
def applyOp (tables : TaskTables) : Op → TaskTables
  | .submit b peers now task_id =>
      { tables with sent := (handleTaskRequest b peers now task_id tables.sent).tasks }
  | .a2aSend target pl cid peers now task_id =>
      { tables with sent := a2aSendStore target pl cid peers now task_id tables.sent }
  | .response fr remoteKey now =>
      { tables with sent := taskResponseUpdate tables.sent fr remoteKey now }
  | .reap peers now => reaperTick now peers tables
  | .manualRetry taskId now => (handleManualRetry taskId now tables).2

/-- The empty tables at process start. -/
def initTables : TaskTables := { sent := [], dead := [] }

/-- State after a sequence of operations from process start. -/
def runOps (ops : List Op) : TaskTables := ops.foldl applyOp initTables

/-- The operations C5 ranges over once the A2A path is excluded:
`/task/request` submission, retry-reaper ticks, manual requeue. -/
def Op.onRetryPath : Op → Bool
  | .submit .. => true
  | .reap .. => true
  | .manualRetry .. => true
  | _ => false

/-- `attemptCount ≤ maxAttempts` (vacuous when the field is absent). -/
def attemptOkB (t : SentTask) : Bool :=
  match t.attemptCount with
  | some a => decide (a ≤ maxAttempts)
  | none => true

/-- `status = 'queued_for_retry' → nextRetryTime is set`. -/
def retryOkB (t : SentTask) : Bool :=
  if t.status = "queued_for_retry" then t.nextRetryTime.isSome else true

/-- A predicate holding of every task of a sent-task table. -/
def SentInv (P : SentTask → Prop) (m : KMap SentTask) : Prop := ∀ p ∈ m, P p.2

theorem SentInv_kset {P : SentTask → Prop} {m : KMap SentTask} {k : String}
    {v : SentTask} (h : SentInv P m) (hv : P v) : SentInv P (kset m k v) := by
  intro p hp
  rcases mem_kset hp with h1 | h1
  · rw [h1]; exact hv
  · exact h p h1

theorem reaperDecide_requeue_not_exhausted (now : Nat) (peers : List Peer)
    (t : SentTask) (h : reaperDecide now peers t = .requeue) :
    attemptsExhausted t.attemptCount = false := by
  by_contra hc
  rw [Bool.not_eq_false] at hc
  unfold reaperDecide at h
  repeat' split at h
  all_goals simp_all

theorem reaperDecide_requeue_bound (now : Nat) (peers : List Peer) (t : SentTask)
    (h : reaperDecide now peers t = .requeue) :
    t.attemptCount.getD 0 < maxAttempts := by
  have hex := reaperDecide_requeue_not_exhausted now peers t h
  cases hac : t.attemptCount with
  | none => simp [maxAttempts]
  | some a =>
      rw [hac] at hex
      simp only [attemptsExhausted, decide_eq_false_iff_not, not_le] at hex
      simpa using hex

theorem reaperStepTask_inv (P : SentTask → Prop)
    (hres : ∀ now t, P t → P (resendUpdate now t))
    (hreq : ∀ now peers t, reaperDecide now peers t = .requeue →
      P t → P (queueTaskForRetry now t))
    (now : Nat) (peers : List Peer) (acc : TaskTables) (id : String) (t : SentTask)
    (hacc : SentInv P acc.sent) (ht : P t) :
    SentInv P (reaperStepTask now peers acc id t).sent := by
  cases hD : reaperDecide now peers t with
  | skip => simpa [reaperStepTask, hD] using hacc
  | deadLetter r =>
      intro p hp
      simp only [reaperStepTask, hD] at hp
      exact hacc p (mem_kerase hp)
  | resend =>
      intro p hp
      simp only [reaperStepTask, hD] at hp
      rcases mem_kset hp with h1 | h1
      · rw [h1]; exact hres now t ht
      · exact hacc p h1
  | requeue =>
      intro p hp
      simp only [reaperStepTask, hD] at hp
      rcases mem_kset hp with h1 | h1
      · rw [h1]; exact hreq now peers t hD ht
      · exact hacc p h1

theorem reaperTick_inv (P : SentTask → Prop)
    (hres : ∀ now t, P t → P (resendUpdate now t))
    (hreq : ∀ now peers t, reaperDecide now peers t = .requeue →
      P t → P (queueTaskForRetry now t))
    (now : Nat) (peers : List Peer) (tables : TaskTables)
    (h : SentInv P tables.sent) : SentInv P (reaperTick now peers tables).sent := by
  unfold reaperTick
  have main : ∀ (l : List (String × SentTask)) (acc : TaskTables),
      SentInv P acc.sent → (∀ p ∈ l, P p.2) →
      SentInv P ((l.foldl (fun a p => reaperStepTask now peers a p.1 p.2) acc)).sent := by
    intro l
    induction l with
    | nil => intro acc hacc _; exact hacc
    | cons p rest ih =>
        intro acc hacc hl
        rw [List.foldl_cons]
        exact ih _
          (reaperStepTask_inv P hres hreq now peers acc p.1 p.2 hacc
            (hl p (List.mem_cons_self p rest)))
          (fun q hq => hl q (List.mem_cons_of_mem _ hq))
  exact main tables.sent tables h h

theorem reaperStepTask_other (now : Nat) (peers : List Peer) (acc : TaskTables)
    (k : String) (t : SentTask) (id : String) (h : k ≠ id) :
    kget (reaperStepTask now peers acc k t).sent id = kget acc.sent id ∧
    kget (reaperStepTask now peers acc k t).dead id = kget acc.dead id := by
  cases hD : reaperDecide now peers t <;>
    simp [reaperStepTask, hD, kget_kerase_ne _ _ _ (Ne.symm h),
      kget_kset_ne _ _ _ _ (Ne.symm h)]

theorem reaperFold_other (now : Nat) (peers : List Peer)
    (l : List (String × SentTask)) (acc : TaskTables) (id : String)
    (h : ∀ p ∈ l, p.1 ≠ id) :
    kget ((l.foldl (fun a p => reaperStepTask now peers a p.1 p.2) acc)).sent id =
      kget acc.sent id ∧
    kget ((l.foldl (fun a p => reaperStepTask now peers a p.1 p.2) acc)).dead id =
      kget acc.dead id := by
  induction l generalizing acc with
  | nil => exact ⟨rfl, rfl⟩
  | cons p rest ih =>
      rw [List.foldl_cons]
      obtain ⟨hs, hd⟩ :=
        reaperStepTask_other now peers acc p.1 p.2 id (h p (List.mem_cons_self p rest))
      obtain ⟨ihs, ihd⟩ := ih (reaperStepTask now peers acc p.1 p.2)
        (fun q hq => h q (List.mem_cons_of_mem _ hq))
      exact ⟨ihs.trans hs, ihd.trans hd⟩

/-- If the reaper decides to dead-letter the task stored under `id`, the
tick removes it from the sent-task table and installs the failed record
in the dead-letter table. -/
theorem reaperTick_deadLetter (now : Nat) (peers : List Peer) (tables : TaskTables)
    (id : String) (t : SentTask) (reason : String)
    (hnd : (kkeys tables.sent).Nodup)
    (hget : kget tables.sent id = some t)
    (hdec : reaperDecide now peers t = .deadLetter reason) :
    kget (reaperTick now peers tables).sent id = none ∧
    kget (reaperTick now peers tables).dead id =
      some (deadLetterTask now reason t) := by
  obtain ⟨l₁, l₂, hsplit⟩ := List.append_of_mem (kget_mem hget)
  have hnd' := hnd
  rw [hsplit] at hnd'
  rw [show kkeys (l₁ ++ (id, t) :: l₂) = l₁.map (·.1) ++ id :: l₂.map (·.1) by
    simp [kkeys]] at hnd'
  rcases List.nodup_append.mp hnd' with ⟨hn1, hn2, hdisj⟩
  have hid1 : id ∉ l₁.map (·.1) := fun hm => hdisj hm (List.mem_cons_self _ _)
  have hid2 : id ∉ l₂.map (·.1) := (List.nodup_cons.mp hn2).1
  have h₁ : ∀ p ∈ l₁, p.1 ≠ id := by
    intro p hp hcontra
    exact hid1 (hcontra ▸ List.mem_map_of_mem _ hp)
  have h₂ : ∀ p ∈ l₂, p.1 ≠ id := by
    intro p hp hcontra
    exact hid2 (hcontra ▸ List.mem_map_of_mem _ hp)
  unfold reaperTick
  rw [hsplit, List.foldl_append, List.foldl_cons]
  set acc1 := l₁.foldl (fun a p => reaperStepTask now peers a p.1 p.2) tables with hacc1
  have hstep : reaperStepTask now peers acc1 id t =
      { sent := kerase acc1.sent id,
        dead := kset acc1.dead id (deadLetterTask now reason t) } := by
    simp [reaperStepTask, hdec]
  rw [hstep]
  obtain ⟨hs, hd⟩ := reaperFold_other now peers l₂
    { sent := kerase acc1.sent id,
      dead := kset acc1.dead id (deadLetterTask now reason t) } id h₂
  rw [hs, hd]
  exact ⟨kget_kerase_self _ _, kget_kset_self _ _ _⟩

theorem handleTaskRequest_attempt (b : TaskRequestBody) (peers : List Peer)
    (now : Nat) (id : String) (sent : KMap SentTask)
    (h : SentInv (attemptOkB · = true) sent) :
    SentInv (attemptOkB · = true) (handleTaskRequest b peers now id sent).tasks := by
  unfold handleTaskRequest
  repeat' split
  all_goals first
    | exact h
    | exact SentInv_kset h rfl

theorem a2aSendStore_attempt (target : Option String) (pl : TaskPayload)
    (cid : Option String) (peers : List Peer) (now : Nat) (taskId : String)
    (sent : KMap SentTask) (h : SentInv (attemptOkB · = true) sent) :
    SentInv (attemptOkB · = true) (a2aSendStore target pl cid peers now taskId sent) := by
  unfold a2aSendStore
  exact SentInv_kset h rfl

theorem taskResponseUpdate_attempt (sent : KMap SentTask) (fr : TaskResponseFrame)
    (remoteKey : String) (now : Nat) (h : SentInv (attemptOkB · = true) sent) :
    SentInv (attemptOkB · = true) (taskResponseUpdate sent fr remoteKey now) := by
  unfold taskResponseUpdate
  cases hG : kget sent fr.task_id with
  | none => exact h
  | some t => exact SentInv_kset h (h _ (kget_mem hG))

theorem handleManualRetry_attempt (taskId : String) (now : Nat) (tables : TaskTables)
    (h : SentInv (attemptOkB · = true) tables.sent) :
    SentInv (attemptOkB · = true) (handleManualRetry taskId now tables).2.sent := by
  unfold handleManualRetry
  cases hG : kget tables.dead taskId with
  | none => exact h
  | some t => exact SentInv_kset h rfl

theorem queueTaskForRetry_attempt (now : Nat) (peers : List Peer) (t : SentTask)
    (hD : reaperDecide now peers t = .requeue) :
    attemptOkB (queueTaskForRetry now t) = true := by
  have hb := reaperDecide_requeue_bound now peers t hD
  simp only [attemptOkB, queueTaskForRetry, decide_eq_true_eq]
  omega

theorem applyOp_attempt (tables : TaskTables) (op : Op)
    (h : SentInv (attemptOkB · = true) tables.sent) :
    SentInv (attemptOkB · = true) (applyOp tables op).sent := by
  cases op with
  | submit b peers now task_id => exact handleTaskRequest_attempt b peers now task_id _ h
  | a2aSend target pl cid peers now task_id =>
      exact a2aSendStore_attempt target pl cid peers now task_id _ h
  | response fr remoteKey now => exact taskResponseUpdate_attempt _ fr remoteKey now h
  | reap peers now =>
      exact reaperTick_inv _ (fun _ _ ht => ht)
        (fun n ps t hD _ => queueTaskForRetry_attempt n ps t hD) now peers tables h
  | manualRetry taskId now => exact handleManualRetry_attempt taskId now tables h

theorem runOps_attempt (ops : List Op) :
    SentInv (attemptOkB · = true) (runOps ops).sent := by
  unfold runOps
  have main : ∀ (l : List Op) (acc : TaskTables),
      SentInv (attemptOkB · = true) acc.sent →
      SentInv (attemptOkB · = true) (l.foldl applyOp acc).sent := by
    intro l
    induction l with
    | nil => intro acc h; exact h
    | cons op rest ih =>
        intro acc h
        rw [List.foldl_cons]
        exact ih _ (applyOp_attempt acc op h)
  exact main ops initTables (fun p hp => absurd hp (List.not_mem_nil p))

theorem handleTaskRequest_retry (b : TaskRequestBody) (peers : List Peer)
    (now : Nat) (id : String) (sent : KMap SentTask)
    (h : SentInv (retryOkB · = true) sent) :
    SentInv (retryOkB · = true) (handleTaskRequest b peers now id sent).tasks := by
  unfold handleTaskRequest
  repeat' split
  all_goals first
    | exact h
    | exact SentInv_kset h rfl

theorem handleManualRetry_retry (taskId : String) (now : Nat) (tables : TaskTables)
    (h : SentInv (retryOkB · = true) tables.sent) :
    SentInv (retryOkB · = true) (handleManualRetry taskId now tables).2.sent := by
  unfold handleManualRetry
  cases hG : kget tables.dead taskId with
  | none => exact h
  | some t => exact SentInv_kset h rfl

theorem applyOp_retry (tables : TaskTables) (op : Op) (hop : op.onRetryPath = true)
    (h : SentInv (retryOkB · = true) tables.sent) :
    SentInv (retryOkB · = true) (applyOp tables op).sent := by
  cases op with
  | submit b peers now task_id => exact handleTaskRequest_retry b peers now task_id _ h
  | a2aSend target pl cid peers now task_id => exact absurd hop (by simp [Op.onRetryPath])
  | response fr remoteKey now => exact absurd hop (by simp [Op.onRetryPath])
  | reap peers now =>
      refine reaperTick_inv _ ?_ ?_ now peers tables h
      · intro n t _
        simp [retryOkB, resendUpdate]
      · intro n ps t _ _
        simp [retryOkB, queueTaskForRetry]
  | manualRetry taskId now => exact handleManualRetry_retry taskId now tables h

theorem runOps_retry (ops : List Op) (hops : ∀ op ∈ ops, op.onRetryPath = true) :
    SentInv (retryOkB · = true) (runOps ops).sent := by
  unfold runOps
  have main : ∀ (l : List Op) (acc : TaskTables),
      (∀ op ∈ l, op.onRetryPath = true) →
      SentInv (retryOkB · = true) acc.sent →
      SentInv (retryOkB · = true) (l.foldl applyOp acc).sent := by
    intro l
    induction l with
    | nil => intro acc _ h; exact h
    | cons op rest ih =>
        intro acc hl h
        rw [List.foldl_cons]
        exact ih _ (fun q hq => hl q (List.mem_cons_of_mem _ hq))
          (applyOp_retry acc op (hl op (List.mem_cons_self op rest)) h)
  exact main ops initTables hops (fun p hp => absurd hp (List.not_mem_nil p))

theorem hexCharVal_hexChar (n : Nat) (h : n < 16) :
    hexCharVal (hexChar n) = some n := by
  interval_cases n <;> decide

theorem hexPairsToBytes_encode (bs : List Nat) (h : ∀ b ∈ bs, b < 256) :
    hexPairsToBytes (bs.flatMap (fun b => [hexChar (b / 16), hexChar (b % 16)])) = bs := by
  induction bs with
  | nil => rfl
  | cons b rest ih =>
      have hb : b < 256 := h b (List.mem_cons_self _ _)
      have h1 : b / 16 < 16 := by omega
      have h2 : b % 16 < 16 := by omega
      have hrest := ih (fun x hx => h x (List.mem_cons_of_mem _ hx))
      have harith : b / 16 * 16 + b % 16 = b := by omega
      simp only [List.flatMap_cons, List.cons_append, List.nil_append]
      rw [hexPairsToBytes, hexCharVal_hexChar _ h1, hexCharVal_hexChar _ h2]
      simp only [hrest, harith]

theorem hexToBytes_bytesToHex (bs : List Nat) (h : ∀ b ∈ bs, b < 256) :
    hexToBytes (bytesToHex bs) = bs := by
  unfold hexToBytes bytesToHex
  exact hexPairsToBytes_encode bs h

/-- Claim C1: for every payload string `s`, verifying the envelope that
`signMessage` produces for `s` with the node's own key returns `true`,
and the envelope carries the content string `s` verbatim;
`verifyMessage` checks the Ed25519 signature over the UTF-8 bytes of
that same string using the envelope's `senderKey`. -/
theorem claim_sign_verify_roundtrip (C : CryptoApi) (now : Nat) (s : String) :
    verifyMessage C (Envelope.toRecord (signMessage C now s)) = true ∧
    (signMessage C now s).content = s := by
  refine ⟨?_, rfl⟩
  simp only [verifyMessage, signMessage, Envelope.toRecord, myPeerId]
  rw [hexToBytes_bytesToHex _ C.spkiDer_bytes, C.parse_own,
    hexToBytes_bytesToHex _ (fun b hb => C.sign_bytes _ b hb)]
  exact C.verify_sign _

/-- Witness for C1 at a concrete crypto backend and payload. -/
theorem claim_sign_verify_roundtrip_witness :
    verifyMessage unitCrypto (Envelope.toRecord (signMessage unitCrypto 0 "hi")) = true ∧
    (signMessage unitCrypto 0 "hi").content = "hi" :=
  claim_sign_verify_roundtrip unitCrypto 0 "hi"

/-- Counterexample to C2 as stated: the empty string is a non-`"*"`
target matching no live peer, but because `target && target !== '*'` is
falsy for `""`, the request takes the broadcast branch and answers 200
with status `sent` and a `pending` task, not 202 / `queued_for_retry`. -/
theorem claim_queue_on_offline_target_cex :
    (handleTaskRequest { description := some "x", target := some "" } [] 7 "t1" []).resp.httpStatus = 200 ∧
    (handleTaskRequest { description := some "x", target := some "" } [] 7 "t1" []).resp.bodyStatus = some "sent" ∧
    (kget (handleTaskRequest { description := some "x", target := some "" } [] 7 "t1" []).tasks "t1").map SentTask.status = some "pending" := by
  decide

/-- Claim C2 (amended: the target must be a non-empty non-`"*"` string;
the empty string takes the broadcast branch): a valid `/task/request`
whose target matches no live peer, neither by short id nor by
case-insensitive agent_id, answers HTTP 202 with status
`queued_for_retry` and stores the task with `attemptCount = 1` and
`nextRetryTime = now + min(5000 * 2^1, 60000) = now + 10000` ms. -/
theorem claim_queue_on_offline_target (b : TaskRequestBody) (peers : List Peer)
    (now : Nat) (id : String) (sent : KMap SentTask) (tgt : String)
    (hdm : descMissing b = false) (hdl : descTooLong b = false)
    (htt : taskTypeBad b = false) (hpr : priorityBad b = false)
    (hcx : contextTooBig b = false)
    (htgt : b.target = some tgt) (hne : tgt ≠ "") (hstar : tgt ≠ "*")
    (hnomatch : ∀ p ∈ peers, matchesTarget tgt p = false) :
    (handleTaskRequest b peers now id sent).resp.httpStatus = 202 ∧
    (handleTaskRequest b peers now id sent).resp.bodyStatus = some "queued_for_retry" ∧
    (handleTaskRequest b peers now id sent).resp.next_retry_at = some (now + 10000) ∧
    kget (handleTaskRequest b peers now id sent).tasks id = some
      { target := tgt, status := "queued_for_retry",
        payload := { description := b.description.getD "",
                     contextJson := b.context.getD "\x7b\x7d",
                     priority := jsDefault b.priority "medium" },
        task_type := jsDefault b.task_type "general", createdAt := now,
        deadline := jsOrNull b.deadline, attemptCount := some 1,
        lastAttemptAt := some now, nextRetryTime := some (now + 10000),
        peerWasOffline := true } := by
  have hfind : peers.find? (matchesTarget tgt) = none :=
    List.find?_eq_none.mpr (fun p hp => by simp [hnomatch p hp])
  have hsp : specificTarget b = some tgt := by
    simp [specificTarget, htgt, hne, hstar]
  have hB : exponentialBackoff 1 = 10000 := by decide
  unfold handleTaskRequest
  simp only [hdm, hdl, htt, hpr, hcx, Bool.false_eq_true, if_false, hsp, hfind, hB]
  exact ⟨trivial, trivial, trivial, kget_kset_self _ _ _⟩

/-- Witness for C2 (amended) at `target = "nobody"` with no peers. -/
theorem claim_queue_on_offline_target_witness :
    (handleTaskRequest { description := some "x", target := some "nobody" } [] 0 "t1" []).resp.httpStatus = 202 ∧
    (handleTaskRequest { description := some "x", target := some "nobody" } [] 0 "t1" []).resp.bodyStatus = some "queued_for_retry" ∧
    (handleTaskRequest { description := some "x", target := some "nobody" } [] 0 "t1" []).resp.next_retry_at = some (0 + 10000) ∧
    kget (handleTaskRequest { description := some "x", target := some "nobody" } [] 0 "t1" []).tasks "t1" = some
      { target := "nobody", status := "queued_for_retry",
        payload := { description := "x", contextJson := "\x7b\x7d", priority := "medium" },
        task_type := "general", createdAt := 0, deadline := none,
        attemptCount := some 1, lastAttemptAt := some 0,
        nextRetryTime := some (0 + 10000), peerWasOffline := true } :=
  claim_queue_on_offline_target
    { description := some "x", target := some "nobody" } [] 0 "t1" [] "nobody"
    rfl rfl rfl rfl rfl rfl (by decide) (by decide)
    (fun p hp => absurd hp (List.not_mem_nil p))

/-- Counterexample to C3 as stated: a sent task with the non-terminal
status `accepted` and a deadline (500) far before the clock (1000) is
left untouched by a reaper tick — the reaper's first guard skips every
status other than `queued_for_retry` and `pending` before it ever looks
at the deadline. -/
theorem claim_deadline_deadletter_cex :
    (reaperTick 1000 []
      { sent := [("t1",
          ({ target := "x", status := "accepted",
             payload := { description := "d", contextJson := "c", priority := "medium" },
             task_type := "general", createdAt := 0, deadline := some 500 } : SentTask))],
        dead := [] }) =
    { sent := [("t1",
        ({ target := "x", status := "accepted",
           payload := { description := "d", contextJson := "c", priority := "medium" },
           task_type := "general", createdAt := 0, deadline := some 500 } : SentTask))],
      dead := [] } := by
  decide

/-- Claim C3 (amended: only tasks whose status is `pending` or
`queued_for_retry` are subject to deadline enforcement; `accepted` and
`in_progress` tasks are skipped by the reaper entirely): a sent task in
one of those two states whose (non-zero) deadline is earlier than the
current time is moved to the dead-letter table with failure reason
"Deadline exceeded" on the next reaper tick, regardless of its
`attemptCount`. -/
theorem claim_deadline_deadletter (now : Nat) (peers : List Peer)
    (tables : TaskTables) (id : String) (t : SentTask)
    (hnd : (kkeys tables.sent).Nodup)
    (hget : kget tables.sent id = some t)
    (hst : t.status = "pending" ∨ t.status = "queued_for_retry")
    (hdl : deadlinePassed t.deadline now = true) :
    kget (reaperTick now peers tables).sent id = none ∧
    kget (reaperTick now peers tables).dead id =
      some (deadLetterTask now "Deadline exceeded" t) := by
  apply reaperTick_deadLetter now peers tables id t _ hnd hget
  rcases hst with h | h <;> simp [reaperDecide, h, hdl]

/-- Witness for C3 (amended): a pending task with expired deadline and
`attemptCount` absent is dead-lettered by the tick. -/
theorem claim_deadline_deadletter_witness :
    kget (reaperTick 100 []
      { sent := [("t1",
          ({ target := "x", status := "pending",
             payload := { description := "d", contextJson := "c", priority := "medium" },
             task_type := "general", createdAt := 0, deadline := some 5 } : SentTask))],
        dead := [] }).sent "t1" = none ∧
    kget (reaperTick 100 []
      { sent := [("t1",
          ({ target := "x", status := "pending",
             payload := { description := "d", contextJson := "c", priority := "medium" },
             task_type := "general", createdAt := 0, deadline := some 5 } : SentTask))],
        dead := [] }).dead "t1" =
      some (deadLetterTask 100 "Deadline exceeded"
        { target := "x", status := "pending",
          payload := { description := "d", contextJson := "c", priority := "medium" },
          task_type := "general", createdAt := 0, deadline := some 5 }) :=
  claim_deadline_deadletter 100 [] _ "t1" _ (by decide) (by decide) (Or.inl rfl) (by decide)

/-- Claim C4: after any sequence of operations (task submission, A2A
message/send, task responses, retry-reaper ticks, manual requeue),
every task of the sent-task table that carries an `attemptCount` has
`attemptCount ≤ maxAttempts = 3`. -/
theorem claim_attemptCount_bounded (ops : List Op) (id : String) (t : SentTask)
    (hget : kget (runOps ops).sent id = some t) (a : Nat)
    (hac : t.attemptCount = some a) : a ≤ maxAttempts := by
  have h := runOps_attempt ops _ (kget_mem hget)
  simp only [attemptOkB, hac, decide_eq_true_eq] at h
  exact h

/-- Witness for C4: the task queued by a submission to an offline peer
has `attemptCount = 1 ≤ 3`. -/
theorem claim_attemptCount_bounded_witness : 1 ≤ maxAttempts :=
  claim_attemptCount_bounded
    [Op.submit { description := some "x", target := some "nobody" } [] 0 "t1"] "t1"
    { target := "nobody", status := "queued_for_retry",
      payload := { description := "x", contextJson := "\x7b\x7d", priority := "medium" },
      task_type := "general", createdAt := 0, deadline := none,
      attemptCount := some 1, lastAttemptAt := some 0,
      nextRetryTime := some 10000, peerWasOffline := true }
    (by decide) 1 rfl

/-- Counterexample to C5 as stated: the A2A `message/send` path with no
matching peer stores a task whose status is `queued_for_retry` but whose
`nextRetryTime` is absent. -/
theorem claim_queued_has_nextRetryTime_cex :
    (kget (runOps [Op.a2aSend (some "ghost")
        { description := "d", contextJson := "c", priority := "medium" }
        none [] 1000 "t9"]).sent "t9").map SentTask.status = some "queued_for_retry" ∧
    (kget (runOps [Op.a2aSend (some "ghost")
        { description := "d", contextJson := "c", priority := "medium" }
        none [] 1000 "t9"]).sent "t9").map SentTask.nextRetryTime = some none := by
  decide

/-- Claim C5 (amended: the A2A `message/send` path is excluded — it can
create a `queued_for_retry` task with no `nextRetryTime`): after any
sequence of `/task/request` submissions, retry-reaper ticks and manual
requeues, every sent task whose status is `queued_for_retry` has its
`nextRetryTime` set. -/
theorem claim_queued_has_nextRetryTime (ops : List Op)
    (hops : ∀ op ∈ ops, op.onRetryPath = true) (id : String) (t : SentTask)
    (hget : kget (runOps ops).sent id = some t)
    (hst : t.status = "queued_for_retry") : t.nextRetryTime.isSome = true := by
  have h := runOps_retry ops hops _ (kget_mem hget)
  simpa [retryOkB, hst] using h

/-- Witness for C5 (amended) at a single offline-target submission. -/
theorem claim_queued_has_nextRetryTime_witness :
    (Option.some 10000).isSome = true :=
  claim_queued_has_nextRetryTime
    [Op.submit { description := some "x", target := some "nobody" } [] 0 "t1"]
    (fun op hop => by rw [List.mem_singleton.mp hop]; rfl)
    "t1"
    { target := "nobody", status := "queued_for_retry",
      payload := { description := "x", contextJson := "\x7b\x7d", priority := "medium" },
      task_type := "general", createdAt := 0, deadline := none,
      attemptCount := some 1, lastAttemptAt := some 0,
      nextRetryTime := some 10000, peerWasOffline := true }
    (by decide) rfl

/-- Claim C6: when a reaper tick processes a `queued_for_retry` task
whose retry time has passed and whose deadline has not, finds no peer
matching its target, and the task's `attemptCount` is at least
`maxAttempts` (hence exactly 3, by the C4 bound), the task is removed
from the sent-task table and appears in the dead-letter table with
status `failed` and failure reason "Peer offline after 3 attempts". -/
theorem claim_retries_exhausted_deadletter (now : Nat) (peers : List Peer)
    (tables : TaskTables) (id : String) (t : SentTask) (a : Nat)
    (hnd : (kkeys tables.sent).Nodup)
    (hget : kget tables.sent id = some t)
    (hst : t.status = "queued_for_retry")
    (hdl : deadlinePassed t.deadline now = false)
    (hnr : retryNotReady t.nextRetryTime now = false)
    (hnp : ∀ p ∈ peers, reaperMatches t.target p = false)
    (hac : t.attemptCount = some a) (h3 : maxAttempts ≤ a) (hle : a ≤ maxAttempts) :
    kget (reaperTick now peers tables).sent id = none ∧
    kget (reaperTick now peers tables).dead id =
      some (deadLetterTask now "Peer offline after 3 attempts" t) := by
  have ha : a = 3 := by
    have hm : maxAttempts = 3 := rfl
    omega
  subst ha
  apply reaperTick_deadLetter now peers tables id t _ hnd hget
  have hfind : peers.find? (reaperMatches t.target) = none :=
    List.find?_eq_none.mpr (fun p hp => by simp [hnp p hp])
  simp [reaperDecide, hst, hdl, hnr, hfind, attemptsExhausted, hac, maxAttempts]
  decide

/-- Witness for C6: an exhausted queued task with no live peers is
dead-lettered. -/
theorem claim_retries_exhausted_deadletter_witness :
    kget (reaperTick 100 []
      { sent := [("t1",
          ({ target := "ghost", status := "queued_for_retry",
             payload := { description := "d", contextJson := "c", priority := "medium" },
             task_type := "general", createdAt := 0, deadline := none,
             attemptCount := some 3, lastAttemptAt := some 40,
             nextRetryTime := some 50, peerWasOffline := true } : SentTask))],
        dead := [] }).sent "t1" = none ∧
    kget (reaperTick 100 []
      { sent := [("t1",
          ({ target := "ghost", status := "queued_for_retry",
             payload := { description := "d", contextJson := "c", priority := "medium" },
             task_type := "general", createdAt := 0, deadline := none,
             attemptCount := some 3, lastAttemptAt := some 40,
             nextRetryTime := some 50, peerWasOffline := true } : SentTask))],
        dead := [] }).dead "t1" =
      some (deadLetterTask 100 "Peer offline after 3 attempts"
        { target := "ghost", status := "queued_for_retry",
          payload := { description := "d", contextJson := "c", priority := "medium" },
          task_type := "general", createdAt := 0, deadline := none,
          attemptCount := some 3, lastAttemptAt := some 40,
          nextRetryTime := some 50, peerWasOffline := true }) :=
  claim_retries_exhausted_deadletter 100 [] _ "t1" _ 3 (by decide) (by decide) rfl
    (by decide) (by decide) (fun p hp => absurd hp (List.not_mem_nil p)) rfl
    (by decide) (by decide)

/-- Claim C7: a `GET /inbox` returns every buffered message exactly once
together with their count and leaves the inbox empty, so a second read
with no intervening arrivals reports zero messages. -/
theorem claim_inbox_drain (inbox : List InboxMsg) :
    (handleInboxRead inbox).messages = inbox ∧
    (handleInboxRead inbox).count = inbox.length ∧
    (handleInboxRead inbox).rest = [] ∧
    (handleInboxRead (handleInboxRead inbox).rest).count = 0 ∧
    (handleInboxRead (handleInboxRead inbox).rest).messages = [] :=
  ⟨rfl, rfl, rfl, rfl, rfl⟩

/-- Counterexample to C8 as stated: `POST /leave` on the default topic
right after startup answers 200 / `left` and removes the topic from the
active-topics map — nothing forbids leaving the default topic. -/
theorem claim_leave_default_forbidden_cex :
    (handleLeave (startupTopics 0) (some DEFAULT_TOPIC)).1.httpStatus = 200 ∧
    (handleLeave (startupTopics 0) (some DEFAULT_TOPIC)).1.bodyStatus = some "left" ∧
    kget (handleLeave (startupTopics 0) (some DEFAULT_TOPIC)).2 DEFAULT_TOPIC = none := by
  decide

/-- Claim C8 (amended: leaving the default topic is allowed, not
forbidden): `POST /leave` with any currently joined topic name —
including the default topic auto-joined at startup — answers 200 /
`left` and removes the topic from the active-topics map. -/
theorem claim_leave_removes_topic (topics : KMap TopicInfo) (name : String)
    (hne : name ≠ "") (hmem : (kget topics name).isSome = true) :
    (handleLeave topics (some name)).1.httpStatus = 200 ∧
    (handleLeave topics (some name)).1.bodyStatus = some "left" ∧
    kget (handleLeave topics (some name)).2 name = none := by
  unfold handleLeave leaveTopic
  simp [hne, hmem, kget_kerase_self]

/-- Witness for C8 (amended) at the startup state and the default topic. -/
theorem claim_leave_removes_topic_witness :
    (handleLeave (startupTopics 5) (some DEFAULT_TOPIC)).1.httpStatus = 200 ∧
    (handleLeave (startupTopics 5) (some DEFAULT_TOPIC)).1.bodyStatus = some "left" ∧
    kget (handleLeave (startupTopics 5) (some DEFAULT_TOPIC)).2 DEFAULT_TOPIC = none :=
  claim_leave_removes_topic (startupTopics 5) DEFAULT_TOPIC (by decide) (by decide)

/-- Claim C9: a verified `task_request` frame whose `task_id` already
exists in the received-task table unconditionally overwrites the entry
with a fresh record — status reset to `pending`, `createdAt` reset to
the current time — regardless of any progress recorded on the old
entry. -/
theorem claim_task_request_frame_overwrites (remoteKey : String) (now : Nat)
    (fr : TaskRequestFrame) (received : KMap ReceivedTask) (inbox : List InboxMsg)
    (old : ReceivedTask) (_hold : kget received fr.task_id = some old) :
    kget (handleTaskRequestFrame remoteKey now fr received inbox).1 fr.task_id =
      some { fromKey := remoteKey, fromShortId := shortId remoteKey,
             status := "pending", payload := fr.payload, task_type := fr.task_type,
             createdAt := now, deadline := fr.deadline } := by
  unfold handleTaskRequestFrame
  exact kget_kset_self _ _ _

/-- Witness for C9: an `in_progress` entry with a recorded result is
overwritten by a fresh `pending` record. -/
theorem claim_task_request_frame_overwrites_witness :
    kget (handleTaskRequestFrame "abcdef1234567890" 99
      { task_id := "t1", task_type := "general",
        payload := { description := "d2", contextJson := "c2", priority := "high" },
        deadline := none, sender := "s" }
      [("t1",
        ({ fromKey := "oldpeer", fromShortId := "oldpeer", status := "in_progress",
           payload := { description := "d1", contextJson := "c1", priority := "low" },
           task_type := "general", createdAt := 1, deadline := none,
           result := some "partial" } : ReceivedTask))]
      []).1 "t1" =
      some { fromKey := "abcdef1234567890", fromShortId := "34567890",
             status := "pending",
             payload := { description := "d2", contextJson := "c2", priority := "high" },
             task_type := "general", createdAt := 99, deadline := none } :=
  claim_task_request_frame_overwrites "abcdef1234567890" 99
    { task_id := "t1", task_type := "general",
      payload := { description := "d2", contextJson := "c2", priority := "high" },
      deadline := none, sender := "s" }
    _ []
    { fromKey := "oldpeer", fromShortId := "oldpeer", status := "in_progress",
      payload := { description := "d1", contextJson := "c1", priority := "low" },
      task_type := "general", createdAt := 1, deadline := none,
      result := some "partial" }
    (by decide)

/-- Claim C10: `verifyMessage` is total — it returns a boolean on every
input record; a record with a missing `content`, `senderKey` or
`signature` field yields `false`, and so does any record whose
`senderKey` does not parse as a public key. -/
theorem claim_verifyMessage_total (C : CryptoApi) (m : MsgRecord) :
    (verifyMessage C m = true ∨ verifyMessage C m = false) ∧
    ((m.content = none ∨ m.senderKey = none ∨ m.signature = none) →
      verifyMessage C m = false) ∧
    (∀ k, m.senderKey = some k → C.createPublicKey (hexToBytes k) = none →
      verifyMessage C m = false) := by
  refine ⟨?_, ?_, ?_⟩
  · cases hv : verifyMessage C m
    · exact Or.inr rfl
    · exact Or.inl rfl
  · intro hmiss
    cases hc : m.content with
    | none => simp [verifyMessage, hc]
    | some c =>
        cases hk : m.senderKey with
        | none => simp [verifyMessage, hc, hk]
        | some k =>
            cases hs : m.signature with
            | none => simp [verifyMessage, hc, hk, hs]
            | some s1 => rcases hmiss with h | h | h <;> simp_all
  · intro k hk hfail
    cases hc : m.content with
    | none => simp [verifyMessage, hc]
    | some c =>
        cases hs : m.signature with
        | none => simp [verifyMessage, hc, hk, hs]
        | some s1 => simp [verifyMessage, hc, hk, hs, hfail]

/-- Witness for C10: a record with a missing signature and a record with
an unparseable sender key both verify to `false`. -/
theorem claim_verifyMessage_total_witness :
    verifyMessage pickyCrypto
      { content := some "x", senderKey := some "00", signature := none } = false ∧
    verifyMessage pickyCrypto
      { content := some "x", senderKey := some "00", signature := some "00" } = false :=
  ⟨(claim_verifyMessage_total pickyCrypto
      { content := some "x", senderKey := some "00", signature := none }).2.1
      (Or.inr (Or.inr rfl)),
   (claim_verifyMessage_total pickyCrypto
      { content := some "x", senderKey := some "00", signature := some "00" }).2.2
      "00" rfl (by decide)⟩

end Kizuna
